import Mathlib

/-!
# Request router and admin bootstrap of the sharing worker (`src/index.js`)

A shallow embedding of `hashPassword`, `initAdmin` and `handleRequest`.

* Strings are Lean strings; the string methods the source calls (`startsWith`,
  `split`, `===`) are defined on their character lists.
* `createHash('sha256').update(password).digest('hex')` is SHA-256 (FIPS 180-4)
  of the UTF-8 bytes of the password, printed in lowercase hexadecimal.  Words are
  natural numbers reduced modulo `2 ^ 32`.
* The D1 database is the list of rows of its `users` table.  An awaited statement
  that fails rejects its promise; the source has no `try`, so the rejection leaves
  the enclosing function: the functions return `Except D1Error _`.
* The route handlers are not part of the source file (it says their bodies are
  omitted), so `handleRequest` ends in the handler call it makes, recorded as an
  `Outcome`.
-/

namespace Airdrop

/-! ## The credential hasher -/

/-- UTF-8 encoding of one code point, as bytes. -/
def utf8EncodeCodePoint (c : Nat) : List Nat :=
  if c < 0x80 then [c]
  else if c < 0x800 then [0xC0 + c / 64, 0x80 + c % 64]
  else if c < 0x10000 then [0xE0 + c / 4096, 0x80 + (c / 64) % 64, 0x80 + c % 64]
  else [0xF0 + (c / 262144) % 8, 0x80 + (c / 4096) % 64, 0x80 + (c / 64) % 64, 0x80 + c % 64]

/-- The bytes `update` hashes for a string argument: its UTF-8 encoding. -/
def utf8Encode (s : String) : List Nat :=
  s.data.flatMap fun c => utf8EncodeCodePoint c.toNat

/-- Addition of 32-bit words. -/
def add32 (x y : Nat) : Nat := (x + y) % 2 ^ 32

/-- Rotation of a 32-bit word to the right by `n` bits. -/
def rotr (n x : Nat) : Nat := ((x >>> n) ||| (x <<< (32 - n))) % 2 ^ 32

/-- Bitwise complement of a 32-bit word. -/
def not32 (x : Nat) : Nat := (2 ^ 32 - 1) ^^^ (x % 2 ^ 32)

/-- The six logical functions of FIPS 180-4, section 4.1.2. -/
def ch (x y z : Nat) : Nat := (x &&& y) ^^^ (not32 x &&& z)

def maj (x y z : Nat) : Nat := (x &&& y) ^^^ (x &&& z) ^^^ (y &&& z)

def bigSigma0 (x : Nat) : Nat := rotr 2 x ^^^ rotr 13 x ^^^ rotr 22 x

def bigSigma1 (x : Nat) : Nat := rotr 6 x ^^^ rotr 11 x ^^^ rotr 25 x

def smallSigma0 (x : Nat) : Nat := rotr 7 x ^^^ rotr 18 x ^^^ (x >>> 3)

def smallSigma1 (x : Nat) : Nat := rotr 17 x ^^^ rotr 19 x ^^^ (x >>> 10)

/-- The sixty-four round constants of FIPS 180-4, section 4.2.2. -/
def roundConstants : List Nat :=
  [0x428a2f98, 0x71374491, 0xb5c0fbcf, 0xe9b5dba5, 0x3956c25b, 0x59f111f1, 0x923f82a4, 0xab1c5ed5,
   0xd807aa98, 0x12835b01, 0x243185be, 0x550c7dc3, 0x72be5d74, 0x80deb1fe, 0x9bdc06a7, 0xc19bf174,
   0xe49b69c1, 0xefbe4786, 0x0fc19dc6, 0x240ca1cc, 0x2de92c6f, 0x4a7484aa, 0x5cb0a9dc, 0x76f988da,
   0x983e5152, 0xa831c66d, 0xb00327c8, 0xbf597fc7, 0xc6e00bf3, 0xd5a79147, 0x06ca6351, 0x14292967,
   0x27b70a85, 0x2e1b2138, 0x4d2c6dfc, 0x53380d13, 0x650a7354, 0x766a0abb, 0x81c2c92e, 0x92722c85,
   0xa2bfe8a1, 0xa81a664b, 0xc24b8b70, 0xc76c51a3, 0xd192e819, 0xd6990624, 0xf40e3585, 0x106aa070,
   0x19a4c116, 0x1e376c08, 0x2748774c, 0x34b0bcb5, 0x391c0cb3, 0x4ed8aa4a, 0x5b9cca4f, 0x682e6ff3,
   0x748f82ee, 0x78a5636f, 0x84c87814, 0x8cc70208, 0x90befffa, 0xa4506ceb, 0xbef9a3f7, 0xc67178f2]

/-- The eight working words of the hash. -/
structure HashState where
  a : Nat
  b : Nat
  c : Nat
  d : Nat
  e : Nat
  f : Nat
  g : Nat
  h : Nat
deriving DecidableEq, Repr

/-- The initial hash value of FIPS 180-4, section 5.3.3. -/
def initialHash : HashState :=
  ⟨0x6a09e667, 0xbb67ae85, 0x3c6ef372, 0xa54ff53a, 0x510e527f, 0x9b05688c, 0x1f83d9ab, 0x5be0cd19⟩

/-- SHA-256 padding: a 0x80 byte, zero bytes up to 56 mod 64, the bit length on 8 bytes. -/
def pad (msg : List Nat) : List Nat :=
  let bits := 8 * msg.length
  msg ++ [0x80] ++ List.replicate ((119 - msg.length % 64) % 64) 0
    ++ (List.range 8).map fun i => (bits / 256 ^ (7 - i)) % 256

/-- Big-endian 32-bit words of a byte list (a trailing partial word is dropped). -/
def toWords : List Nat → List Nat
  | b0 :: b1 :: b2 :: b3 :: rest => (((b0 * 256 + b1) * 256 + b2) * 256 + b3) :: toWords rest
  | _ => []

/-- Extends the message schedule (kept newest first) by `n` words. -/
def extendSchedule : Nat → List Nat → List Nat
  | 0, w => w
  | n + 1, w =>
    extendSchedule n
      (add32 (add32 (smallSigma1 (w.getD 1 0)) (w.getD 6 0))
        (add32 (smallSigma0 (w.getD 14 0)) (w.getD 15 0)) :: w)

/-- The sixty-four words of the message schedule of a sixteen-word block. -/
def schedule (block : List Nat) : List Nat :=
  (extendSchedule 48 block.reverse).reverse

/-- One round of the compression function, on a constant and a schedule word. -/
def round (s : HashState) (kw : Nat × Nat) : HashState :=
  let t1 := add32 (add32 (add32 s.h (bigSigma1 s.e)) (add32 (ch s.e s.f s.g) kw.1)) kw.2
  let t2 := add32 (bigSigma0 s.a) (maj s.a s.b s.c)
  ⟨add32 t1 t2, s.a, s.b, s.c, add32 s.d t1, s.e, s.f, s.g⟩

/-- The compression of one block into the hash state. -/
def compress (s : HashState) (block : List Nat) : HashState :=
  let r := (roundConstants.zip (schedule block)).foldl round s
  ⟨add32 s.a r.a, add32 s.b r.b, add32 s.c r.c, add32 s.d r.d,
   add32 s.e r.e, add32 s.f r.f, add32 s.g r.g, add32 s.h r.h⟩

/-- Processes the word list sixteen words at a time; `n` bounds the number of blocks. -/
def processBlocks : Nat → HashState → List Nat → HashState
  | 0, s, _ => s
  | n + 1, s, ws =>
    if ws.length < 16 then s else processBlocks n (compress s (ws.take 16)) (ws.drop 16)

/-- The four bytes of a 32-bit word, most significant first. -/
def wordBytes (w : Nat) : List Nat :=
  [(w / 2 ^ 24) % 256, (w / 2 ^ 16) % 256, (w / 2 ^ 8) % 256, w % 256]

/-- The 32 bytes of the SHA-256 digest of a byte list. -/
def sha256 (msg : List Nat) : List Nat :=
  let ws := toWords (pad msg)
  let s := processBlocks ws.length initialHash ws
  [s.a, s.b, s.c, s.d, s.e, s.f, s.g, s.h].flatMap wordBytes

/-- The digits of the `hex` encoding. -/
def hexDigits : List Char := "0123456789abcdef".data

/-- The two hexadecimal digits of a byte. -/
def hexByte (b : Nat) : List Char :=
  [hexDigits.getD (b / 16 % 16) '0', hexDigits.getD (b % 16) '0']

/-- The `hex` encoding of a byte list. -/
def hexEncode (bytes : List Nat) : String := String.mk (bytes.flatMap hexByte)

/-- Source lines 6-8: `createHash('sha256').update(password).digest('hex')`.  The only
input is the password. -/
def hashPassword (password : String) : String :=
  hexEncode (sha256 (utf8Encode password))

/-! ## The users table -/

/-- One row of the `users` table, with the columns the source reads or writes. -/
structure UserRow where
  id : Nat
  username : String
  password_hash : String
  is_admin : Nat
  created_at : Nat
deriving DecidableEq, Repr

/-- The global bindings of the worker that `initAdmin` reads. -/
structure Bindings where
  ADMIN_USERNAME : String
  ADMIN_PASSWORD : String
  /-- Modelled from the spec: the declaration of the `users` table is not in the source.
  The INSERT of `initAdmin` names three columns; the store fills `id` and `created_at`
  of the new row itself, from the rows present. -/
  storeDefaults : List UserRow → Nat × Nat

/-- A rejected D1 statement. -/
inductive D1Error where
  | uniqueConstraint (column : String)
deriving DecidableEq, Repr

/-- The statement `SELECT * FROM users WHERE username = ?` followed by `.first()`: the
first matching row, or `none` for `null`. -/
def selectUserFirst (users : List UserRow) (username : String) : Option UserRow :=
  users.find? fun r => decide (r.username = username)

/-- The statement `INSERT INTO users (username, password_hash, is_admin) VALUES (?, ?, 1)`
followed by `.run()`.

Modelled from the spec: the table declaration is not in the source; the spec gives
`username` as unique, enforced by the store, so the statement is rejected when a row with
that username is present. -/
def insertUser (b : Bindings) (users : List UserRow) (username password_hash : String) :
    Except D1Error (List UserRow) :=
  if users.any (fun r => decide (r.username = username)) then
    .error (.uniqueConstraint "users.username")
  else
    .ok (users ++ [{ id := (b.storeDefaults users).1, username := username,
                     password_hash := password_hash, is_admin := 1,
                     created_at := (b.storeDefaults users).2 }])

/-- Source lines 11-21.  `concurrent` is what other requests do to the table while this
call is suspended between its two awaited statements. -/
def initAdmin (b : Bindings) (concurrent : List UserRow → List UserRow)
    (users : List UserRow) : Except D1Error (List UserRow) :=
  let adminExists := selectUserFirst users b.ADMIN_USERNAME
  let users := concurrent users
  if adminExists.isNone then
    insertUser b users b.ADMIN_USERNAME (hashPassword b.ADMIN_PASSWORD)
  else
    .ok users

/-- No other request touches the table during the call. -/
def alone (users : List UserRow) : List UserRow := users

/-- Another first request completes its own bootstrap during the call. -/
def concurrentFirstRequest (b : Bindings) (users : List UserRow) : List UserRow :=
  match initAdmin b alone users with
  | .ok users1 => users1
  | .error _ => users

/-! ## The request router -/

/-- The parts of a `Request` the router can look at; `pathname` is
`new URL(request.url).pathname`. -/
structure Request where
  method : String
  pathname : String
  headers : List (String × String)
  body : String
deriving DecidableEq, Repr

/-- A response built by the router itself. -/
structure Response where
  body : String
  status : Nat
deriving DecidableEq, Repr

/-- How `handleRequest` ends: the handler call it returns, or a response of its own. -/
inductive Outcome where
  | handleHome (request : Request)
  | handleLogin (request : Request)
  | handleLogout
  | handleSendText (request : Request)
  | handleUpload (request : Request)
  | handleFileDownload (key : Option String)
  | handleDelete (request : Request)
  | handleAdminPanel (request : Request)
  | handleAddUser (request : Request)
  | respond (response : Response)
deriving DecidableEq, Repr

/-- The method `s.startsWith(p)`. -/
def strStartsWith (s p : String) : Bool := p.data.isPrefixOf s.data

/-- The pieces of a character list between the occurrences of `sep`. -/
def splitChars (sep : Char) : List Char → List (List Char)
  | [] => [[]]
  | c :: cs =>
    if c = sep then [] :: splitChars sep cs
    else
      match splitChars sep cs with
      | [] => [[c]]
      | piece :: pieces => (c :: piece) :: pieces

/-- The method `s.split(sep)` for a one-character separator. -/
def strSplit (s : String) (sep : Char) : List String :=
  (splitChars sep s.data).map String.mk

/-- Source line 168: `new Response('Not found', { status: 404 })`. -/
def notFound : Outcome := .respond { body := "Not found", status := 404 }

/-- Source lines 148-168: the chain of tests on path and method.  An index outside the
array gives `undefined`, here `none`. -/
def route (request : Request) : Outcome :=
  if request.pathname = "/" then
    .handleHome request
  else if request.pathname = "/login" ∧ request.method = "POST" then
    .handleLogin request
  else if request.pathname = "/logout" ∧ request.method = "POST" then
    .handleLogout
  else if request.pathname = "/send-text" ∧ request.method = "POST" then
    .handleSendText request
  else if request.pathname = "/upload" ∧ request.method = "POST" then
    .handleUpload request
  else if strStartsWith request.pathname "/file/" = true then
    .handleFileDownload ((strSplit request.pathname '/')[2]?)
  else if request.pathname = "/delete" ∧ request.method = "POST" then
    .handleDelete request
  else if request.pathname = "/admin" then
    .handleAdminPanel request
  else if request.pathname = "/add-user" ∧ request.method = "POST" then
    .handleAddUser request
  else
    notFound

/-- Source lines 143-169: the bootstrap, then the routing.  The result is the table as
the bootstrap leaves it and the call or response the function returns. -/
def handleRequest (b : Bindings) (concurrent : List UserRow → List UserRow)
    (request : Request) (users : List UserRow) : Except D1Error (List UserRow × Outcome) :=
  match initAdmin b concurrent users with
  | .error e => .error e
  | .ok users1 => .ok (users1, route request)

/-! ## Vocabulary of the statements -/

/-- The row the INSERT of `initAdmin` adds to the table `users`. -/
def bootstrapRow (b : Bindings) (users : List UserRow) : UserRow :=
  { id := (b.storeDefaults users).1, username := b.ADMIN_USERNAME,
    password_hash := hashPassword b.ADMIN_PASSWORD, is_admin := 1,
    created_at := (b.storeDefaults users).2 }

/-- The rows of the table carrying the username `u`. -/
def rowsNamed (u : String) (users : List UserRow) : List UserRow :=
  users.filter fun r => decide (r.username = u)

/-! ## Sample inputs -/

/-- Bindings used in the closed examples. -/
def sampleBindings : Bindings :=
  { ADMIN_USERNAME := "admin", ADMIN_PASSWORD := "admin123",
    storeDefaults := fun users => (users.length + 1, 0) }

/-- A request with no headers and an empty body. -/
def sampleRequest (method pathname : String) : Request :=
  { method := method, pathname := pathname, headers := [], body := "" }

/-- A table whose only row has the admin username of the sample bindings and is not
flagged `is_admin`. -/
def unflaggedTable : List UserRow :=
  [{ id := 1, username := "admin", password_hash := hashPassword "guest", is_admin := 0,
     created_at := 0 }]

/-! ## Lemmas on the hasher -/

theorem sha256_length (msg : List Nat) : (sha256 msg).length = 32 := by
  simp [sha256, wordBytes, List.flatMap]

theorem sha256_byte_lt (msg : List Nat) : ∀ x ∈ sha256 msg, x < 256 := by
  intro x hx
  simp only [sha256, wordBytes, List.mem_flatMap, List.mem_cons, List.mem_singleton,
    List.not_mem_nil, or_false] at hx
  obtain ⟨w, -, h | h | h | h⟩ := hx <;> subst h <;> exact Nat.mod_lt _ (by norm_num)

theorem hexDigit_mem (n : Nat) : hexDigits.getD (n % 16) '0' ∈ hexDigits := by
  have h : n % 16 < 16 := Nat.mod_lt _ (by norm_num)
  interval_cases n % 16 <;> decide

theorem hexEncode_data_length (bytes : List Nat) :
    (hexEncode bytes).data.length = 2 * bytes.length := by
  induction bytes with
  | nil => rfl
  | cons x xs ih =>
    simp only [hexEncode, List.flatMap_cons, List.length_append, List.length_cons] at ih ⊢
    simp only [hexByte, List.length_cons, List.length_nil]
    omega

theorem hexEncode_data_mem (bytes : List Nat) : ∀ c ∈ (hexEncode bytes).data, c ∈ hexDigits := by
  intro c hc
  simp only [hexEncode, List.mem_flatMap, hexByte, List.mem_cons, List.mem_singleton,
    List.not_mem_nil, or_false] at hc
  obtain ⟨x, -, h | h⟩ := hc <;> subst h <;> exact hexDigit_mem _

/-- The digests of `abc` and of the empty string, checked against the published SHA-256
values. -/
theorem hashPassword_sample :
    hashPassword "abc" = "ba7816bf8f01cfea414140de5dae2223b00361a396177a9cb410ff61f20015ad" ∧
    hashPassword "" = "e3b0c44298fc1c149afbf4c8996fb92427ae41e4649b934ca495991b7852b855" := by
  set_option maxRecDepth 100000 in decide

/-! ## The credential hasher: claim C5 -/

/-- C5: `hashPassword` is a function of the password alone (equal passwords give equal
digests); its result is the lowercase hexadecimal print of the 32 bytes of the SHA-256
digest of the UTF-8 password, so it has exactly 64 characters, each one of
`0123456789abcdef`; the length is 64 for whatever bytes are hashed. -/
theorem hashPassword_deterministic_hex64 (password : String) :
    (∀ again : String, again = password → hashPassword again = hashPassword password) ∧
    hashPassword password = hexEncode (sha256 (utf8Encode password)) ∧
    (sha256 (utf8Encode password)).length = 32 ∧
    (∀ x ∈ sha256 (utf8Encode password), x < 256) ∧
    (hashPassword password).length = 64 ∧
    (∀ c ∈ (hashPassword password).data, c ∈ "0123456789abcdef".data) ∧
    ∀ bytes : List Nat, (hexEncode (sha256 bytes)).data.length = 64 := by
  refine ⟨fun again h => by rw [h], rfl, sha256_length _, sha256_byte_lt _, ?_, ?_,
    fun bytes => by rw [hexEncode_data_length, sha256_length]⟩
  · have h : (hashPassword password).length = (hexEncode (sha256 (utf8Encode password))).data.length :=
      rfl
    rw [h, hexEncode_data_length, sha256_length]
  · exact hexEncode_data_mem _

theorem hashPassword_deterministic_hex64_witness :
    "admin123" = "admin123" ∧
    hashPassword "admin123" = hashPassword "admin123" ∧
    (hashPassword "admin123").length = 64 :=
  ⟨rfl, (hashPassword_deterministic_hex64 "admin123").1 "admin123" rfl,
    (hashPassword_deterministic_hex64 "admin123").2.2.2.2.1⟩

/-! ## Lemmas on the users table and the bootstrap -/

theorem selectUserFirst_eq_none_iff (users : List UserRow) (u : String) :
    selectUserFirst users u = none ↔ ∀ r ∈ users, r.username ≠ u := by
  simp [selectUserFirst, List.find?_eq_none]

theorem selectUserFirst_some_of_present (users : List UserRow) (u : String)
    (h : ∃ r ∈ users, r.username = u) :
    ∃ r ∈ users, r.username = u ∧ selectUserFirst users u = some r := by
  cases hs : selectUserFirst users u with
  | none =>
    obtain ⟨r, hr, hu⟩ := h
    exact absurd hu ((selectUserFirst_eq_none_iff users u).1 hs r hr)
  | some r =>
    refine ⟨r, List.mem_of_find?_eq_some hs, ?_, rfl⟩
    simpa using List.find?_some hs

theorem insertUser_absent (b : Bindings) (users : List UserRow) (u p : String)
    (h : ∀ r ∈ users, r.username ≠ u) :
    insertUser b users u p =
      .ok (users ++ [{ id := (b.storeDefaults users).1, username := u, password_hash := p,
                       is_admin := 1, created_at := (b.storeDefaults users).2 }]) := by
  have hany : users.any (fun r => decide (r.username = u)) = false := by
    simpa [List.any_eq_false] using h
  simp [insertUser, hany]

theorem insertUser_present (b : Bindings) (users : List UserRow) (u p : String)
    (h : ∃ r ∈ users, r.username = u) :
    insertUser b users u p = .error (.uniqueConstraint "users.username") := by
  have hany : users.any (fun r => decide (r.username = u)) = true := by
    simpa [List.any_eq_true] using h
  simp [insertUser, hany]

theorem initAdmin_alone_absent (b : Bindings) (users : List UserRow)
    (h : ∀ r ∈ users, r.username ≠ b.ADMIN_USERNAME) :
    initAdmin b alone users = .ok (users ++ [bootstrapRow b users]) := by
  have hs := (selectUserFirst_eq_none_iff users b.ADMIN_USERNAME).2 h
  simp [initAdmin, hs, alone, insertUser_absent b users _ _ h, bootstrapRow]

theorem initAdmin_alone_present (b : Bindings) (users : List UserRow)
    (h : ∃ r ∈ users, r.username = b.ADMIN_USERNAME) :
    initAdmin b alone users = .ok users := by
  obtain ⟨r, -, -, hs⟩ := selectUserFirst_some_of_present users _ h
  simp [initAdmin, hs, alone]

theorem initAdmin_alone_ok (b : Bindings) (users : List UserRow) :
    ∃ users1, initAdmin b alone users = .ok users1 := by
  by_cases h : ∃ r ∈ users, r.username = b.ADMIN_USERNAME
  · exact ⟨_, initAdmin_alone_present b users h⟩
  · push_neg at h
    exact ⟨_, initAdmin_alone_absent b users h⟩

theorem handleRequest_alone_ok (b : Bindings) (request : Request) (users : List UserRow) :
    ∃ users1, initAdmin b alone users = .ok users1 ∧
      handleRequest b alone request users = .ok (users1, route request) := by
  obtain ⟨users1, h⟩ := initAdmin_alone_ok b users
  exact ⟨users1, h, by simp [handleRequest, h]⟩

/-! ## Lemmas on the router -/

theorem route_eq_notFound_iff (request : Request) :
    route request = notFound ↔
      request.pathname ≠ "/" ∧ request.pathname ≠ "/admin" ∧
      strStartsWith request.pathname "/file/" = false ∧
      ¬ (request.method = "POST" ∧
          request.pathname ∈
            ["/login", "/logout", "/send-text", "/upload", "/delete", "/add-user"]) := by
  unfold route notFound
  split_ifs <;> simp_all
  tauto

theorem strStartsWith_file_ne (s : String) (hs : strStartsWith s "/file/" = true) :
    s ≠ "/" ∧ s ≠ "/admin" ∧ s ≠ "/login" ∧ s ≠ "/logout" ∧ s ≠ "/send-text" ∧
      s ≠ "/upload" ∧ s ≠ "/delete" ∧ s ≠ "/add-user" := by
  refine ⟨?_, ?_, ?_, ?_, ?_, ?_, ?_, ?_⟩ <;> rintro rfl <;> revert hs <;> decide

theorem route_cases (request : Request) :
    (request.pathname = "/" ∧ route request = .handleHome request) ∨
    (request.pathname = "/login" ∧ request.method = "POST" ∧
      route request = .handleLogin request) ∨
    (request.pathname = "/logout" ∧ request.method = "POST" ∧
      route request = .handleLogout) ∨
    (request.pathname = "/send-text" ∧ request.method = "POST" ∧
      route request = .handleSendText request) ∨
    (request.pathname = "/upload" ∧ request.method = "POST" ∧
      route request = .handleUpload request) ∨
    (strStartsWith request.pathname "/file/" = true ∧
      route request = .handleFileDownload ((strSplit request.pathname '/')[2]?)) ∨
    (request.pathname = "/delete" ∧ request.method = "POST" ∧
      route request = .handleDelete request) ∨
    (request.pathname = "/admin" ∧ route request = .handleAdminPanel request) ∨
    (request.pathname = "/add-user" ∧ request.method = "POST" ∧
      route request = .handleAddUser request) ∨
    (route request = notFound ∧ request.pathname ≠ "/" ∧ request.pathname ≠ "/admin" ∧
      strStartsWith request.pathname "/file/" = false ∧
      (request.method = "POST" → request.pathname ≠ "/login" ∧
        request.pathname ≠ "/logout" ∧ request.pathname ≠ "/send-text" ∧
        request.pathname ≠ "/upload" ∧ request.pathname ≠ "/delete" ∧
        request.pathname ≠ "/add-user")) := by
  by_cases h1 : request.pathname = "/"
  · simp [route, h1]
  by_cases h2 : request.pathname = "/login" ∧ request.method = "POST"
  · simp [route, h2.1, h2.2]
  by_cases h3 : request.pathname = "/logout" ∧ request.method = "POST"
  · simp [route, h3.1, h3.2]
  by_cases h4 : request.pathname = "/send-text" ∧ request.method = "POST"
  · simp [route, h4.1, h4.2]
  by_cases h5 : request.pathname = "/upload" ∧ request.method = "POST"
  · simp [route, h5.1, h5.2]
  by_cases h6 : strStartsWith request.pathname "/file/" = true
  · obtain ⟨f1, f2, f3, f4, f5, f6, f7, f8⟩ := strStartsWith_file_ne _ h6
    simp [route, f1, f2, f3, f4, f5, f6, f7, f8, h6]
  by_cases h7 : request.pathname = "/delete" ∧ request.method = "POST"
  · simp [route, h7.1, h7.2]
  by_cases h8 : request.pathname = "/admin"
  · simp [route, h8]
  by_cases h9 : request.pathname = "/add-user" ∧ request.method = "POST"
  · simp [route, h9.1, h9.2]
  · have hr : route request = notFound := by simp [route, h1, h2, h3, h4, h5, h6, h7, h8, h9]
    rw [Bool.not_eq_true] at h6
    iterate 9 right
    exact ⟨hr, h1, h8, h6, fun hm => ⟨fun h => h2 ⟨h, hm⟩, fun h => h3 ⟨h, hm⟩,
      fun h => h4 ⟨h, hm⟩, fun h => h5 ⟨h, hm⟩, fun h => h7 ⟨h, hm⟩, fun h => h9 ⟨h, hm⟩⟩⟩

theorem route_characterisation (request : Request) :
    (∀ r, route request = .handleHome r ↔ r = request ∧ request.pathname = "/") ∧
    (∀ r, route request = .handleAdminPanel r ↔ r = request ∧ request.pathname = "/admin") ∧
    (∀ key, route request = .handleFileDownload key ↔
      key = (strSplit request.pathname '/')[2]? ∧
        strStartsWith request.pathname "/file/" = true) ∧
    (∀ r, route request = .handleLogin r ↔
      r = request ∧ request.pathname = "/login" ∧ request.method = "POST") ∧
    (route request = .handleLogout ↔
      request.pathname = "/logout" ∧ request.method = "POST") ∧
    (∀ r, route request = .handleSendText r ↔
      r = request ∧ request.pathname = "/send-text" ∧ request.method = "POST") ∧
    (∀ r, route request = .handleUpload r ↔
      r = request ∧ request.pathname = "/upload" ∧ request.method = "POST") ∧
    (∀ r, route request = .handleDelete r ↔
      r = request ∧ request.pathname = "/delete" ∧ request.method = "POST") ∧
    (∀ r, route request = .handleAddUser r ↔
      r = request ∧ request.pathname = "/add-user" ∧ request.method = "POST") := by
  have hcomm : ∀ r : Request, request = r ↔ r = request := fun r => eq_comm
  have hkey : ∀ k : Option String,
      (strSplit request.pathname '/')[2]? = k ↔ k = (strSplit request.pathname '/')[2]? :=
    fun k => eq_comm
  rcases route_cases request with
    ⟨hp, hr⟩ | ⟨hp, hm, hr⟩ | ⟨hp, hm, hr⟩ | ⟨hp, hm, hr⟩ | ⟨hp, hm, hr⟩ | ⟨hf, hr⟩ |
    ⟨hp, hm, hr⟩ | ⟨hp, hr⟩ | ⟨hp, hm, hr⟩ | ⟨hr, n1, n2, n3, n4⟩
  · simp [hr, hp, hcomm, strStartsWith]
  · simp [hr, hp, hm, hcomm, strStartsWith]
  · simp [hr, hp, hm, hcomm, strStartsWith]
  · simp [hr, hp, hm, hcomm, strStartsWith]
  · simp [hr, hp, hm, hcomm, strStartsWith]
  · obtain ⟨f1, f2, f3, f4, f5, f6, f7, f8⟩ := strStartsWith_file_ne _ hf
    simp [hr, hf, hkey, f1, f2, f3, f4, f5, f6, f7, f8]
  · simp [hr, hp, hm, hcomm, strStartsWith]
  · simp [hr, hp, hcomm, strStartsWith]
  · simp [hr, hp, hm, hcomm, strStartsWith]
  · simp only [hr, notFound, n1, n2, n3]
    simp
    tauto

theorem splitChars_no_sep (sep : Char) (k : List Char) (hk : sep ∉ k) :
    splitChars sep k = [k] := by
  induction k with
  | nil => rfl
  | cons c cs ih =>
    have hc : c ≠ sep := fun h => hk (by simp [h])
    have hcs : sep ∉ cs := fun h => hk (List.mem_cons_of_mem _ h)
    simp [splitChars, hc, ih hcs]

theorem splitChars_append_sep (sep : Char) (k rest : List Char) (hk : sep ∉ k) :
    ∃ pieces, splitChars sep (k ++ sep :: rest) = k :: pieces := by
  induction k with
  | nil => exact ⟨splitChars sep rest, by simp [splitChars]⟩
  | cons c cs ih =>
    have hc : c ≠ sep := fun h => hk (by simp [h])
    have hcs : sep ∉ cs := fun h => hk (List.mem_cons_of_mem _ h)
    obtain ⟨pieces, hp⟩ := ih hcs
    exact ⟨pieces, by simp [splitChars, hc, hp]⟩

theorem strSplit_file_prefix (tail : List Char) :
    strSplit (String.mk ("/file/".data ++ tail)) '/' =
      "" :: "file" :: (splitChars '/' tail).map String.mk := by
  have h : "/file/".data = ['/', 'f', 'i', 'l', 'e', '/'] := rfl
  simp only [strSplit, h, List.cons_append, List.nil_append]
  have hs : splitChars '/' ('/' :: 'f' :: 'i' :: 'l' :: 'e' :: '/' :: tail) =
      [] :: ['f', 'i', 'l', 'e'] :: splitChars '/' tail := by
    simp [splitChars]
  rw [hs]
  rfl

theorem strStartsWith_file_append (tail : String) :
    strStartsWith ("/file/" ++ tail) "/file/" = true := by
  simp [strStartsWith, List.isPrefixOf_iff_prefix]

theorem route_file_key (method key : String) (headers : List (String × String))
    (body : String) (hkey : '/' ∉ key.data) :
    route { method := method, pathname := "/file/" ++ key, headers := headers, body := body }
      = .handleFileDownload (some key) := by
  rw [(route_characterisation _).2.2.1]
  refine ⟨?_, strStartsWith_file_append key⟩
  have hp : "/file/" ++ key = String.mk ("/file/".data ++ key.data) := rfl
  show some key = (strSplit ("/file/" ++ key) '/')[2]?
  rw [hp, strSplit_file_prefix, splitChars_no_sep _ _ hkey]
  rfl

theorem route_file_first_segment (method key rest : String)
    (headers : List (String × String)) (body : String) (hkey : '/' ∉ key.data) :
    route { method := method, pathname := "/file/" ++ key ++ "/" ++ rest, headers := headers,
            body := body }
      = .handleFileDownload (some key) := by
  rw [(route_characterisation _).2.2.1]
  have hp : "/file/" ++ key ++ "/" ++ rest =
      String.mk ("/file/".data ++ (key.data ++ '/' :: rest.data)) := by
    apply String.ext
    simp
  have hq : "/file/" ++ key ++ "/" ++ rest = "/file/" ++ (key ++ "/" ++ rest) := by
    apply String.ext
    simp
  refine ⟨?_, ?_⟩
  · show some key = (strSplit ("/file/" ++ key ++ "/" ++ rest) '/')[2]?
    obtain ⟨pieces, hpieces⟩ := splitChars_append_sep '/' key.data rest.data hkey
    rw [hp, strSplit_file_prefix, hpieces]
    simp
  · show strStartsWith ("/file/" ++ key ++ "/" ++ rest) "/file/" = true
    rw [hq]
    exact strStartsWith_file_append _

/-! ## The router: claims C1, C2, C8, C9 -/

/-- C1: for every request, `handleRequest` (with the table to itself) returns, and what
it returns is the 404 response `Not found` if and only if the pathname is not `/`, is not
`/admin`, does not start with `/file/`, and the request is not a POST to one of `/login`,
`/logout`, `/send-text`, `/upload`, `/delete`, `/add-user`.  In particular a GET to one of
these six paths gets the 404 response, which is no handler call. -/
theorem handleRequest_notFound_iff_unmatched (b : Bindings) (request : Request)
    (users : List UserRow) :
    ∃ users1 outcome, handleRequest b alone request users = .ok (users1, outcome) ∧
      (outcome = notFound ↔
        request.pathname ≠ "/" ∧ request.pathname ≠ "/admin" ∧
        strStartsWith request.pathname "/file/" = false ∧
        ¬ (request.method = "POST" ∧
            request.pathname ∈
              ["/login", "/logout", "/send-text", "/upload", "/delete", "/add-user"])) ∧
      (request.method = "GET" →
        request.pathname ∈
          ["/login", "/logout", "/send-text", "/upload", "/delete", "/add-user"] →
        outcome = .respond { body := "Not found", status := 404 }) := by
  obtain ⟨users1, -, h⟩ := handleRequest_alone_ok b request users
  refine ⟨users1, route request, h, route_eq_notFound_iff request, ?_⟩
  intro hm hp
  have hroute := (route_eq_notFound_iff request).2
  unfold notFound at hroute
  apply hroute
  simp only [List.mem_cons, List.mem_singleton, List.not_mem_nil, or_false] at hp
  rw [hm]
  rcases hp with hp | hp | hp | hp | hp | hp <;> rw [hp] <;> decide

theorem handleRequest_notFound_iff_unmatched_witness :
    (sampleRequest "GET" "/upload").method = "GET" ∧
    (sampleRequest "GET" "/upload").pathname ∈
      ["/login", "/logout", "/send-text", "/upload", "/delete", "/add-user"] ∧
    ∃ users1, handleRequest sampleBindings alone (sampleRequest "GET" "/upload") [] =
      .ok (users1, .respond { body := "Not found", status := 404 }) := by
  obtain ⟨users1, outcome, h, -, hget⟩ :=
    handleRequest_notFound_iff_unmatched sampleBindings (sampleRequest "GET" "/upload") []
  refine ⟨rfl, by decide, users1, ?_⟩
  rw [h, hget rfl (by decide)]

/-- C2, as the code has it: the home handler is called exactly for the pathname `/`, the
admin-panel handler exactly for `/admin` and the file-download handler exactly for the
pathnames that start with `/file/`, whatever the method of the request; the handlers of
`/login`, `/logout`, `/send-text`, `/upload`, `/delete` and `/add-user` are called exactly
for their path with method POST.  Each handler that takes the request gets the request
itself. -/
theorem handleRequest_dispatch_table (b : Bindings) (request : Request)
    (users : List UserRow) :
    ∃ users1 outcome, handleRequest b alone request users = .ok (users1, outcome) ∧
      (∀ r, outcome = .handleHome r ↔ r = request ∧ request.pathname = "/") ∧
      (∀ r, outcome = .handleAdminPanel r ↔ r = request ∧ request.pathname = "/admin") ∧
      (∀ key, outcome = .handleFileDownload key ↔
        key = (strSplit request.pathname '/')[2]? ∧
          strStartsWith request.pathname "/file/" = true) ∧
      (∀ r, outcome = .handleLogin r ↔
        r = request ∧ request.pathname = "/login" ∧ request.method = "POST") ∧
      (outcome = .handleLogout ↔
        request.pathname = "/logout" ∧ request.method = "POST") ∧
      (∀ r, outcome = .handleSendText r ↔
        r = request ∧ request.pathname = "/send-text" ∧ request.method = "POST") ∧
      (∀ r, outcome = .handleUpload r ↔
        r = request ∧ request.pathname = "/upload" ∧ request.method = "POST") ∧
      (∀ r, outcome = .handleDelete r ↔
        r = request ∧ request.pathname = "/delete" ∧ request.method = "POST") ∧
      (∀ r, outcome = .handleAddUser r ↔
        r = request ∧ request.pathname = "/add-user" ∧ request.method = "POST") := by
  obtain ⟨users1, -, h⟩ := handleRequest_alone_ok b request users
  exact ⟨users1, route request, h, route_characterisation request⟩

/-- C2 fails as stated: a POST to `/` is handed to the home handler, a DELETE to
`/file/k` to the file-download handler and a PUT to `/admin` to the admin-panel handler;
none of them gets the 404 response. -/
theorem handleRequest_other_method_still_dispatched :
    handleRequest sampleBindings alone (sampleRequest "POST" "/") [] =
      .ok ([bootstrapRow sampleBindings []], .handleHome (sampleRequest "POST" "/")) ∧
    handleRequest sampleBindings alone (sampleRequest "DELETE" "/file/k") [] =
      .ok ([bootstrapRow sampleBindings []], .handleFileDownload (some "k")) ∧
    handleRequest sampleBindings alone (sampleRequest "PUT" "/admin") [] =
      .ok ([bootstrapRow sampleBindings []], .handleAdminPanel (sampleRequest "PUT" "/admin")) ∧
    Outcome.handleHome (sampleRequest "POST" "/") ≠ notFound ∧
    Outcome.handleFileDownload (some "k") ≠ notFound ∧
    Outcome.handleAdminPanel (sampleRequest "PUT" "/admin") ≠ notFound := by
  refine ⟨rfl, rfl, rfl, by decide, by decide, by decide⟩

/-- C8: for every key without a `/`, a request (of any method) whose pathname is `/file/`
followed by the key makes `handleRequest` call the file-download handler with exactly that
key; when further segments follow (`/file/` key `/` rest) the handler gets the key alone,
the first segment; for the pathname `/file/` it gets the empty string. -/
theorem handleRequest_file_download_key (b : Bindings) (users : List UserRow)
    (method key rest : String) (headers : List (String × String)) (body : String)
    (hkey : '/' ∉ key.data) :
    (∃ users1, handleRequest b alone
        { method := method, pathname := "/file/" ++ key, headers := headers, body := body }
        users = .ok (users1, .handleFileDownload (some key))) ∧
    (∃ users1, handleRequest b alone
        { method := method, pathname := "/file/" ++ key ++ "/" ++ rest, headers := headers,
          body := body }
        users = .ok (users1, .handleFileDownload (some key))) ∧
    (∃ users1, handleRequest b alone
        { method := method, pathname := "/file/", headers := headers, body := body }
        users = .ok (users1, .handleFileDownload (some ""))) := by
  refine ⟨?_, ?_, ?_⟩
  · obtain ⟨users1, -, h⟩ := handleRequest_alone_ok b
      { method := method, pathname := "/file/" ++ key, headers := headers, body := body } users
    exact ⟨users1, by rw [h, route_file_key method key headers body hkey]⟩
  · obtain ⟨users1, -, h⟩ := handleRequest_alone_ok b
      { method := method, pathname := "/file/" ++ key ++ "/" ++ rest, headers := headers,
        body := body } users
    exact ⟨users1, by rw [h, route_file_first_segment method key rest headers body hkey]⟩
  · obtain ⟨users1, -, h⟩ := handleRequest_alone_ok b
      { method := method, pathname := "/file/", headers := headers, body := body } users
    have hempty : ("/file/" ++ "" : String) = "/file/" := by decide
    have hr := route_file_key method "" headers body (by simp)
    rw [hempty] at hr
    exact ⟨users1, by rw [h, hr]⟩

theorem handleRequest_file_download_key_witness :
    '/' ∉ "a".data ∧
    (∃ users1, handleRequest sampleBindings alone (sampleRequest "GET" "/file/a") [] =
      .ok (users1, .handleFileDownload (some "a"))) ∧
    (∃ users1, handleRequest sampleBindings alone (sampleRequest "GET" "/file/a/b") [] =
      .ok (users1, .handleFileDownload (some "a"))) ∧
    (∃ users1, handleRequest sampleBindings alone (sampleRequest "GET" "/file/") [] =
      .ok (users1, .handleFileDownload (some ""))) :=
  ⟨by decide, handleRequest_file_download_key sampleBindings [] "GET" "a" "b" [] "" (by decide)⟩

/-- C9: two requests with the same pathname under `/file/` get, from the same table and
the same concurrent activity, the same result from `handleRequest`, whatever their
method, headers (cookies among them) and body are; run alone, both end in the call of the
file-download handler on the key cut from the pathname, and that call carries no request. -/
theorem handleRequest_file_download_ignores_request (b : Bindings)
    (concurrent : List UserRow → List UserRow) (users : List UserRow) (r1 r2 : Request)
    (hpath : r1.pathname = r2.pathname)
    (hfile : strStartsWith r1.pathname "/file/" = true) :
    handleRequest b concurrent r1 users = handleRequest b concurrent r2 users ∧
    ∃ users1,
      handleRequest b alone r1 users =
        .ok (users1, .handleFileDownload ((strSplit r1.pathname '/')[2]?)) ∧
      handleRequest b alone r2 users =
        .ok (users1, .handleFileDownload ((strSplit r1.pathname '/')[2]?)) := by
  have h1 : route r1 = .handleFileDownload ((strSplit r1.pathname '/')[2]?) :=
    ((route_characterisation r1).2.2.1 _).2 ⟨rfl, hfile⟩
  have h2 : route r2 = .handleFileDownload ((strSplit r1.pathname '/')[2]?) :=
    ((route_characterisation r2).2.2.1 _).2 ⟨by rw [hpath], by rw [← hpath]; exact hfile⟩
  refine ⟨by simp [handleRequest, h1, h2], ?_⟩
  obtain ⟨users1, h⟩ := initAdmin_alone_ok b users
  exact ⟨users1, by simp [handleRequest, h, h1], by simp [handleRequest, h, h2]⟩

theorem handleRequest_file_download_ignores_request_witness :
    handleRequest sampleBindings alone (sampleRequest "GET" "/file/k") [] =
      handleRequest sampleBindings alone
        { method := "DELETE", pathname := "/file/k", headers := [("Cookie", "session=abc")],
          body := "x" } [] :=
  (handleRequest_file_download_ignores_request sampleBindings alone []
    (sampleRequest "GET" "/file/k")
    { method := "DELETE", pathname := "/file/k", headers := [("Cookie", "session=abc")],
      body := "x" } rfl (by decide)).1

/-! ## The admin bootstrap: claims C3, C4, C6, C7, C10 -/

theorem rowsNamed_absent (u : String) (users : List UserRow)
    (h : ∀ r ∈ users, r.username ≠ u) : rowsNamed u users = [] := by
  simp only [rowsNamed, List.filter_eq_nil_iff, decide_eq_true_eq]
  exact h

theorem rowsNamed_append_bootstrapRow (b : Bindings) (users : List UserRow)
    (h : ∀ r ∈ users, r.username ≠ b.ADMIN_USERNAME) :
    rowsNamed b.ADMIN_USERNAME (users ++ [bootstrapRow b users]) = [bootstrapRow b users] := by
  have h0 := rowsNamed_absent _ users h
  unfold rowsNamed at h0 ⊢
  rw [List.filter_append, h0]
  simp [bootstrapRow]

theorem rowsNamed_of_nodup (u : String) (users : List UserRow)
    (hnodup : (users.map fun r => r.username).Nodup) (r : UserRow) (hr : r ∈ users)
    (hu : r.username = u) : rowsNamed u users = [r] := by
  induction users with
  | nil => simp at hr
  | cons x xs ih =>
    rw [List.map_cons, List.nodup_cons] at hnodup
    rcases List.mem_cons.1 hr with rfl | hmem
    · have hrest : rowsNamed u xs = [] := by
        apply rowsNamed_absent
        intro y hy hyu
        exact hnodup.1 (List.mem_map.2 ⟨y, hy, by rw [hyu, hu]⟩)
      unfold rowsNamed at hrest ⊢
      simp [List.filter_cons, hu, hrest]
    · have hx : x.username ≠ u := by
        intro hxu
        exact hnodup.1 (List.mem_map.2 ⟨r, hmem, by rw [hu, hxu]⟩)
      have := ih hnodup.2 hmem
      unfold rowsNamed at this ⊢
      simp [List.filter_cons, hx, this]

theorem bootstrapRow_present (b : Bindings) (users : List UserRow) :
    ∃ r ∈ users ++ [bootstrapRow b users], r.username = b.ADMIN_USERNAME :=
  ⟨bootstrapRow b users, by simp, rfl⟩

/-- C3: run with the table to itself, `initAdmin` succeeds, and a second run on the table
the first one leaves succeeds and leaves that same table, so two runs in sequence give
what one run gives; when the starting table has no row with the admin username, the table
after the two runs has exactly one such row. -/
theorem initAdmin_idempotent (b : Bindings) (users : List UserRow) :
    ∃ users1, initAdmin b alone users = .ok users1 ∧
      initAdmin b alone users1 = .ok users1 ∧
      (initAdmin b alone users >>= initAdmin b alone) = initAdmin b alone users ∧
      ((∀ r ∈ users, r.username ≠ b.ADMIN_USERNAME) →
        ∃ users2, (initAdmin b alone users >>= initAdmin b alone) = .ok users2 ∧
          (rowsNamed b.ADMIN_USERNAME users2).length = 1) := by
  by_cases h : ∃ r ∈ users, r.username = b.ADMIN_USERNAME
  · have h1 := initAdmin_alone_present b users h
    have hb : (initAdmin b alone users >>= initAdmin b alone) = .ok users := by
      rw [h1]
      exact h1
    refine ⟨users, h1, h1, by rw [hb, h1], ?_⟩
    intro habsent
    obtain ⟨r, hr, hu⟩ := h
    exact absurd hu (habsent r hr)
  · push_neg at h
    have h1 := initAdmin_alone_absent b users h
    have h2 := initAdmin_alone_present b _ (bootstrapRow_present b users)
    have hb : (initAdmin b alone users >>= initAdmin b alone) =
        .ok (users ++ [bootstrapRow b users]) := by
      rw [h1]
      exact h2
    refine ⟨_, h1, h2, by rw [hb, h1], ?_⟩
    intro _
    exact ⟨_, hb, by rw [rowsNamed_append_bootstrapRow b users h]; rfl⟩

theorem initAdmin_idempotent_witness :
    (∀ r ∈ ([] : List UserRow), r.username ≠ sampleBindings.ADMIN_USERNAME) ∧
    ∃ users2,
      (initAdmin sampleBindings alone [] >>= initAdmin sampleBindings alone) = .ok users2 ∧
        (rowsNamed sampleBindings.ADMIN_USERNAME users2).length = 1 := by
  obtain ⟨_, _, _, _, h⟩ := initAdmin_idempotent sampleBindings []
  exact ⟨by simp, h (by simp)⟩

/-- C4 fails as stated: on a table with unique usernames whose row named like the admin
has `is_admin` 0, a request that ends in the 404 response leaves the table as it was, and
the one row with the admin username is not flagged. -/
theorem handleRequest_keeps_unflagged_row :
    (unflaggedTable.map fun r => r.username).Nodup ∧
    handleRequest sampleBindings alone (sampleRequest "GET" "/nowhere") unflaggedTable =
      .ok (unflaggedTable, notFound) ∧
    rowsNamed sampleBindings.ADMIN_USERNAME unflaggedTable = unflaggedTable ∧
    unflaggedTable.length = 1 ∧
    ∀ r ∈ unflaggedTable, r.is_admin = 0 := by
  refine ⟨by simp [unflaggedTable], ?_, ?_, rfl, by simp [unflaggedTable]⟩
  · have h : initAdmin sampleBindings alone unflaggedTable = .ok unflaggedTable :=
      initAdmin_alone_present _ _ ⟨_, List.mem_singleton.2 rfl, rfl⟩
    have hr : route (sampleRequest "GET" "/nowhere") = notFound := by decide
    simp [handleRequest, h, hr]
  · simp [rowsNamed, unflaggedTable, sampleBindings]

/-- C4, as the code has it: for every request and every table with unique usernames,
when `handleRequest` (with the table to itself) has run the bootstrap and returns the
404 response or the handler call, usernames are still unique and the table has exactly
one row with the admin username.  When no row had that username before, this row is the
one the bootstrap inserted, with `is_admin` 1; when a row had it, this row is that row,
left as it was, and the table is unchanged. -/
theorem handleRequest_exactly_one_admin_row (b : Bindings) (request : Request)
    (users : List UserRow) (hnodup : (users.map fun r => r.username).Nodup) :
    ∃ users1 outcome row, handleRequest b alone request users = .ok (users1, outcome) ∧
      (users1.map fun r => r.username).Nodup ∧
      rowsNamed b.ADMIN_USERNAME users1 = [row] ∧
      ((∀ r ∈ users, r.username ≠ b.ADMIN_USERNAME) →
        users1 = users ++ [row] ∧ row.is_admin = 1) ∧
      (∀ r ∈ users, r.username = b.ADMIN_USERNAME → row = r ∧ users1 = users) := by
  by_cases h : ∃ r ∈ users, r.username = b.ADMIN_USERNAME
  · obtain ⟨r0, hr0, hu0⟩ := h
    have h1 := initAdmin_alone_present b users ⟨r0, hr0, hu0⟩
    have hrows := rowsNamed_of_nodup _ users hnodup r0 hr0 hu0
    refine ⟨users, route request, r0, by simp [handleRequest, h1], hnodup, hrows, ?_, ?_⟩
    · intro habsent
      exact absurd hu0 (habsent r0 hr0)
    · intro r hr hu
      have := rowsNamed_of_nodup _ users hnodup r hr hu
      rw [hrows] at this
      exact ⟨by simpa using this, rfl⟩
  · push_neg at h
    have h1 := initAdmin_alone_absent b users h
    refine ⟨_, route request, bootstrapRow b users, by simp [handleRequest, h1], ?_,
      rowsNamed_append_bootstrapRow b users h, fun _ => ⟨rfl, rfl⟩, ?_⟩
    · rw [List.map_append, List.nodup_append]
      refine ⟨hnodup, by simp, ?_⟩
      intro a ha hb
      obtain ⟨r, hr, rfl⟩ := List.mem_map.1 ha
      simp only [List.map_cons, List.map_nil, List.mem_singleton] at hb
      exact h r hr hb
    · intro r hr hu
      exact absurd hu (h r hr)

theorem handleRequest_exactly_one_admin_row_witness :
    (unflaggedTable.map fun r => r.username).Nodup ∧
    ∃ users1 outcome row,
      handleRequest sampleBindings alone (sampleRequest "GET" "/") unflaggedTable =
        .ok (users1, outcome) ∧
      rowsNamed sampleBindings.ADMIN_USERNAME users1 = [row] := by
  have hn : (unflaggedTable.map fun r => r.username).Nodup := by simp [unflaggedTable]
  obtain ⟨users1, outcome, row, h, -, hrows, -⟩ :=
    handleRequest_exactly_one_admin_row sampleBindings (sampleRequest "GET" "/")
      unflaggedTable hn
  exact ⟨hn, users1, outcome, row, h, hrows⟩

/-- C6 fails as stated: from the empty table, with another first request completing its
bootstrap between the SELECT and the INSERT, the SELECT reports no admin row, the INSERT is
rejected by the unique constraint, and both `initAdmin` and `handleRequest` fail with that
rejection; `handleRequest` returns no handler call and no response. -/
theorem handleRequest_fails_on_conflict :
    selectUserFirst [] sampleBindings.ADMIN_USERNAME = none ∧
    insertUser sampleBindings (concurrentFirstRequest sampleBindings [])
        sampleBindings.ADMIN_USERNAME (hashPassword sampleBindings.ADMIN_PASSWORD) =
      .error (.uniqueConstraint "users.username") ∧
    initAdmin sampleBindings (concurrentFirstRequest sampleBindings) [] =
      .error (.uniqueConstraint "users.username") ∧
    handleRequest sampleBindings (concurrentFirstRequest sampleBindings)
        (sampleRequest "GET" "/") [] =
      .error (.uniqueConstraint "users.username") ∧
    ∀ users1 outcome,
      handleRequest sampleBindings (concurrentFirstRequest sampleBindings)
        (sampleRequest "GET" "/") [] ≠ .ok (users1, outcome) := by
  have hrace : concurrentFirstRequest sampleBindings [] = [bootstrapRow sampleBindings []] := by
    simp [concurrentFirstRequest, initAdmin_alone_absent sampleBindings [] (by simp)]
  have hins : insertUser sampleBindings (concurrentFirstRequest sampleBindings [])
      sampleBindings.ADMIN_USERNAME (hashPassword sampleBindings.ADMIN_PASSWORD) =
      .error (.uniqueConstraint "users.username") := by
    rw [hrace]
    exact insertUser_present _ _ _ _ ⟨_, List.mem_singleton.2 rfl, rfl⟩
  have hinit : initAdmin sampleBindings (concurrentFirstRequest sampleBindings) [] =
      .error (.uniqueConstraint "users.username") := by
    simp only [initAdmin, selectUserFirst, List.find?_nil, Option.isNone_none, if_true]
    exact hins
  have hreq : handleRequest sampleBindings (concurrentFirstRequest sampleBindings)
      (sampleRequest "GET" "/") [] = .error (.uniqueConstraint "users.username") := by
    simp [handleRequest, hinit]
  refine ⟨rfl, hins, hinit, hreq, ?_⟩
  intro users1 outcome
  rw [hreq]
  exact fun h => nomatch h

/-- C6, as the code has it: `initAdmin` has no handling of a rejected statement.  When the
SELECT finds no row with the admin username and the INSERT that follows is rejected (by
the unique constraint, after a concurrent first request), `initAdmin` fails with that
rejection and so does `handleRequest`, for every request: it does not route it. -/
theorem handleRequest_propagates_insert_rejection (b : Bindings)
    (concurrent : List UserRow → List UserRow) (request : Request) (users : List UserRow)
    (e : D1Error)
    (habsent : selectUserFirst users b.ADMIN_USERNAME = none)
    (hreject : insertUser b (concurrent users) b.ADMIN_USERNAME
      (hashPassword b.ADMIN_PASSWORD) = .error e) :
    initAdmin b concurrent users = .error e ∧
    handleRequest b concurrent request users = .error e ∧
    ∀ users1 outcome, handleRequest b concurrent request users ≠ .ok (users1, outcome) := by
  have hinit : initAdmin b concurrent users = .error e := by
    simp only [initAdmin, habsent, Option.isNone_none, if_true]
    exact hreject
  have hreq : handleRequest b concurrent request users = .error e := by
    simp [handleRequest, hinit]
  refine ⟨hinit, hreq, ?_⟩
  intro users1 outcome
  rw [hreq]
  exact fun h => nomatch h

theorem handleRequest_propagates_insert_rejection_witness :
    selectUserFirst [] sampleBindings.ADMIN_USERNAME = none ∧
    insertUser sampleBindings (unflaggedTable ++ [])
        sampleBindings.ADMIN_USERNAME (hashPassword sampleBindings.ADMIN_PASSWORD) =
      .error (.uniqueConstraint "users.username") ∧
    handleRequest sampleBindings (fun users => unflaggedTable ++ users)
        (sampleRequest "POST" "/login") [] =
      .error (.uniqueConstraint "users.username") :=
  have hins : insertUser sampleBindings (unflaggedTable ++ [])
      sampleBindings.ADMIN_USERNAME (hashPassword sampleBindings.ADMIN_PASSWORD) =
      .error (.uniqueConstraint "users.username") :=
    insertUser_present _ _ _ _ ⟨_, List.mem_singleton.2 rfl, rfl⟩
  ⟨rfl, hins,
    (handleRequest_propagates_insert_rejection sampleBindings
      (fun users => unflaggedTable ++ users) (sampleRequest "POST" "/login") []
      (.uniqueConstraint "users.username") rfl hins).2.1⟩

/-- C7: when the table has no row with the admin username, `initAdmin` appends exactly
one row; its username is `ADMIN_USERNAME`, its `password_hash` is
`hashPassword(ADMIN_PASSWORD)` and its `is_admin` is 1.  It is then the only row with that
username, the one a lookup by `ADMIN_USERNAME` returns, and the comparison of
`hashPassword(ADMIN_PASSWORD)` with its stored hash succeeds. -/
theorem initAdmin_inserts_admin_row (b : Bindings) (users : List UserRow)
    (habsent : ∀ r ∈ users, r.username ≠ b.ADMIN_USERNAME) :
    ∃ row, initAdmin b alone users = .ok (users ++ [row]) ∧
      row.username = b.ADMIN_USERNAME ∧
      row.password_hash = hashPassword b.ADMIN_PASSWORD ∧
      row.is_admin = 1 ∧
      rowsNamed b.ADMIN_USERNAME (users ++ [row]) = [row] ∧
      selectUserFirst (users ++ [row]) b.ADMIN_USERNAME = some row ∧
      (hashPassword b.ADMIN_PASSWORD == row.password_hash) = true := by
  refine ⟨bootstrapRow b users, initAdmin_alone_absent b users habsent, rfl, rfl, rfl,
    rowsNamed_append_bootstrapRow b users habsent, ?_, by simp [bootstrapRow]⟩
  have hnone := (selectUserFirst_eq_none_iff users b.ADMIN_USERNAME).2 habsent
  unfold selectUserFirst at hnone ⊢
  rw [List.find?_append, hnone]
  simp [bootstrapRow]

theorem initAdmin_inserts_admin_row_witness :
    (∀ r ∈ ([] : List UserRow), r.username ≠ sampleBindings.ADMIN_USERNAME) ∧
    ∃ row, initAdmin sampleBindings alone [] = .ok ([] ++ [row]) ∧
      row.username = "admin" ∧
      row.password_hash = hashPassword "admin123" ∧
      row.is_admin = 1 := by
  obtain ⟨row, h1, h2, h3, h4, -⟩ := initAdmin_inserts_admin_row sampleBindings [] (by simp)
  exact ⟨by simp, row, h1, h2, h3, h4⟩

/-- C10: when a row with the admin username is present, whatever its `password_hash` and
`is_admin`, `initAdmin` leaves the whole table as it is; when none is present, the table it
leaves is the old table followed by one new row, so every old row is unchanged and the
table is one row longer. -/
theorem initAdmin_frame (b : Bindings) (users : List UserRow) :
    ((∃ r ∈ users, r.username = b.ADMIN_USERNAME) → initAdmin b alone users = .ok users) ∧
    ((∀ r ∈ users, r.username ≠ b.ADMIN_USERNAME) →
      ∃ users1 row, initAdmin b alone users = .ok users1 ∧
        users1 = users ++ [row] ∧
        users1.length = users.length + 1 ∧
        users1.take users.length = users ∧
        ∀ i, i < users.length → users1[i]? = users[i]?) := by
  refine ⟨initAdmin_alone_present b users, fun habsent => ?_⟩
  refine ⟨_, bootstrapRow b users, initAdmin_alone_absent b users habsent, rfl, by simp,
    by simp, ?_⟩
  intro i hi
  exact List.getElem?_append_left hi

theorem initAdmin_frame_witness :
    (∃ r ∈ unflaggedTable, r.username = sampleBindings.ADMIN_USERNAME) ∧
    initAdmin sampleBindings alone unflaggedTable = .ok unflaggedTable ∧
    (∀ r ∈ ([] : List UserRow), r.username ≠ sampleBindings.ADMIN_USERNAME) ∧
    ∃ users1 row, initAdmin sampleBindings alone [] = .ok users1 ∧ users1 = [] ++ [row] :=
  have hp : ∃ r ∈ unflaggedTable, r.username = sampleBindings.ADMIN_USERNAME :=
    ⟨_, List.mem_singleton.2 rfl, rfl⟩
  have ha : ∀ r ∈ ([] : List UserRow), r.username ≠ sampleBindings.ADMIN_USERNAME := by simp
  ⟨hp, (initAdmin_frame sampleBindings unflaggedTable).1 hp, ha,
    match (initAdmin_frame sampleBindings []).2 ha with
    | ⟨users1, row, h1, h2, _⟩ => ⟨users1, row, h1, h2⟩⟩

end Airdrop
